import Mathlib

/-!
Verification of the client-side data-fetching pipeline of react-storefront:
the `fetch` function and `redirectTo` helper of
`src/packages/react-storefront/src/router/fromServer.js`, and the `PWA`
component's `recordState` / `recordStateOnChange` methods.

JavaScript values relevant to the claims are embedded shallowly: JSON
objects become association lists with unique keys, the distinction between
JavaScript `undefined` and `null` is kept (the source relies on it), and
the asynchronous fetch is modelled as a pure function from the settled
outcome of the underlying request (and the observed browser locations) to
the emitted side-effect events and the final result.
-/

namespace ReactStorefront

/-- A JSON/JavaScript value, as far as the claims need one. -/
inductive JVal where
  | bool : Bool → JVal
  | num : Int → JVal
  | str : String → JVal
deriving DecidableEq

/-- A state patch: a JSON object, i.e. a finite map from string keys to
values, represented as an association list (unique keys for parsed JSON). -/
abbrev StatePatch := List (String × JVal)

/-- JavaScript property lookup on an object: the value at the first
occurrence of the key, if any. -/
def getKey : StatePatch → String → Option JVal
  | [], _ => none
  | (k0, v0) :: t, k => if k0 = k then some v0 else getKey t k

/-- JavaScript property assignment on an object: replace the value at an
existing key, or append the key at the end. -/
def setKey : StatePatch → String → JVal → StatePatch
  | [], k, v => [(k, v)]
  | (k0, v0) :: t, k, v =>
      if k0 = k then (k, v) :: t else (k0, v0) :: setKey t k v

/-- The JavaScript object spread of `addl` over `base`: every entry of
`addl` is assigned, in order, on top of `base`. -/
def spreadMerge (base addl : StatePatch) : StatePatch :=
  addl.foldl (fun acc kv => setKey acc kv.1 kv.2) base

/-- A parsed absolute URL, with the components that `new URL(...)` exposes
and the source reads: `hostname`, `pathname`, `search`, plus `protocol`
and `port` (needed to state the same-origin notion of the claims). -/
structure URLRec where
  protocol : String
  hostname : String
  port : String
  pathname : String
  search : String
deriving DecidableEq

/-- Same-origin comparison of two URLs, following the claim wording: the
origins agree when protocol, hostname and port all agree.  The source of
`redirectTo` compares hostnames only; this definition exists to state the
claim, not to embed the source. -/
def sameOrigin (a b : URLRec) : Bool :=
  a.protocol == b.protocol && a.hostname == b.hostname && a.port == b.port

/-- Errors that can settle a promise in the modelled pipeline.
`staleResponse` is the distinguishable signal thrown by the `fetchLatest`
deduplicator; `redirectWithoutLocation` is the error thrown by
`redirectTo`; `other` stands for any further JavaScript exception
(network failures, JSON parse failures, history size limits). -/
inductive JSError where
  | staleResponse
  | redirectWithoutLocation
  | other : String → JSError
deriving DecidableEq

/-- The action `redirectTo` performs on a present redirect URL: a
client-side history push of a path string, or a full browser navigation
via `location.assign` to the redirect URL. -/
inductive RedirectAction where
  | historyPush : String → RedirectAction
  | locationAssign : URLRec → RedirectAction
deriving DecidableEq

/-- Embedding of `redirectTo(url)` from `fromServer.js`.  The `url`
argument is the (already parsed) redirect target, `none` standing for the
absent or empty (falsy) URL; `windowLocation` is `window.location`.  A
same-hostname target yields a history push of `pathname + search`; any
other present target yields `location.assign`; an absent target throws. -/
def redirectTo (url : Option URLRec) (windowLocation : URLRec) :
    Except JSError RedirectAction :=
  match url with
  | some parsed =>
      if parsed.hostname = windowLocation.hostname then
        Except.ok (RedirectAction.historyPush (parsed.pathname ++ parsed.search))
      else
        Except.ok (RedirectAction.locationAssign parsed)
  | none => Except.error JSError.redirectWithoutLocation

/-- Decidable equality for settled promise outcomes. -/
instance {ε α : Type} [DecidableEq ε] [DecidableEq α] :
    DecidableEq (Except ε α) := fun a b =>
  match a, b with
  | Except.ok x, Except.ok y =>
      if h : x = y then isTrue (by rw [h]) else isFalse (by simp [h])
  | Except.error x, Except.error y =>
      if h : x = y then isTrue (by rw [h]) else isFalse (by simp [h])
  | Except.ok _, Except.error _ => isFalse (by simp)
  | Except.error _, Except.ok _ => isFalse (by simp)

/-- The settled HTTP response the deduplicated request can deliver, with
the fields the source reads: `redirected`, the final `url` (`none` for a
falsy URL), `status`, and the outcome of `response.json()` (an object
body, or a rejection). -/
structure ResponseRec where
  redirected : Bool
  url : Option URLRec
  status : Nat
  json : Except JSError StatePatch
deriving DecidableEq

/-- The result a call to `fetch` resolves with.  JavaScript `undefined`
(the function body falling off the end without a `return`) is kept
distinct from the explicit `null` of the stale-response branch. -/
inductive FetchResult where
  | undef
  | null
  | patch : StatePatch → FetchResult
deriving DecidableEq

/-- Observable side-effect events of one `fetch` call, in program order. -/
inductive Ev where
  | abortPrefetches
  | dispatch
  | responseReceived
  | resumePrefetches
  | historyPush : String → Ev
  | locationAssign : URLRec → Ev
  | setRedirectedFlag
deriving DecidableEq

/-- Everything one call to `fetch` observes from its environment:
`location.href` when the call starts, the settled outcome of the
deduplicated request, `location.href` when the result is examined,
`window.location` (used by `redirectTo`), and whether an
`originalResponse` argument was passed. -/
structure FetchInput where
  hrefAtDispatch : String
  outcome : Except JSError ResponseRec
  hrefAtResolution : String
  windowLocation : URLRec
  hasOriginalResponse : Bool
deriving DecidableEq

/-- The event a redirect action emits. -/
def redirectEv : RedirectAction → Ev
  | RedirectAction.historyPush p => Ev.historyPush p
  | RedirectAction.locationAssign u => Ev.locationAssign u

/-- The body of the `try` block of `fetch` in `fromServer.js`: abort the
prefetches, dispatch the request, then interpret the settled outcome.
Errors of any inner step reject the promise and surface here as
`Except.error`. -/
def fetchTry (inp : FetchInput) : List Ev × Except JSError FetchResult :=
  match inp.outcome with
  | Except.error e =>
      ([Ev.abortPrefetches, Ev.dispatch], Except.error e)
  | Except.ok r =>
      if r.redirected then
        match redirectTo r.url inp.windowLocation with
        | Except.error e =>
            ([Ev.abortPrefetches, Ev.dispatch, Ev.responseReceived],
             Except.error e)
        | Except.ok act =>
            ([Ev.abortPrefetches, Ev.dispatch, Ev.responseReceived,
                redirectEv act] ++
               (if inp.hasOriginalResponse then [Ev.setRedirectedFlag] else []),
             Except.ok FetchResult.undef)
      else
        if r.status = 204 then
          ([Ev.abortPrefetches, Ev.dispatch, Ev.responseReceived,
              Ev.resumePrefetches],
           Except.ok FetchResult.undef)
        else
          match r.json with
          | Except.error e =>
              ([Ev.abortPrefetches, Ev.dispatch, Ev.responseReceived,
                  Ev.resumePrefetches],
               Except.error e)
          | Except.ok p =>
              if inp.hrefAtResolution = inp.hrefAtDispatch then
                ([Ev.abortPrefetches, Ev.dispatch, Ev.responseReceived,
                    Ev.resumePrefetches],
                 Except.ok (FetchResult.patch
                   (spreadMerge [("loading", JVal.bool false)] p)))
              else
                ([Ev.abortPrefetches, Ev.dispatch, Ev.responseReceived,
                    Ev.resumePrefetches],
                 Except.ok FetchResult.undef)

/-- The `catch` clause of `fetch`: a `StaleResponseError` is swallowed
and converted to an explicit `null` result; every other error is
rethrown. -/
def catchStale (x : Except JSError FetchResult) : Except JSError FetchResult :=
  match x with
  | Except.error e =>
      if e = JSError.staleResponse then Except.ok FetchResult.null
      else Except.error e
  | Except.ok v => Except.ok v

/-- Embedding of `fetch(url, options, originalResponse)` from
`fromServer.js`: the `try` body wrapped in the stale-swallowing `catch`,
returning the emitted events and the settled result. -/
def fetch (inp : FetchInput) : List Ev × Except JSError FetchResult :=
  ((fetchTry inp).1, catchStale (fetchTry inp).2)

/-- Modelled from the spec: the request deduplicator (`fetchLatest`, the
module `src/packages/react-storefront/src/fetchLatest.js`) is imported by
`fromServer.js` but is not among the given source files.  Per the spec,
it keeps a shared generation counter; each issued request is bound to a
fresh generation, and a resolution is honored only when its generation is
still the latest, every earlier one being observed as a
`StaleResponseError`. -/
structure DedupState where
  nextGeneration : Nat
deriving DecidableEq

/-- Modelled from the spec: issuing a request returns its generation and
increments the shared counter. -/
def DedupState.issue (s : DedupState) : Nat × DedupState :=
  (s.nextGeneration, { nextGeneration := s.nextGeneration + 1 })

/-- Modelled from the spec: a network completion for generation `g` is
honored exactly when `g` is the most recently issued generation;
otherwise the bound promise rejects with the stale-response signal. -/
def DedupState.settle (s : DedupState) (g : Nat) : Except JSError Unit :=
  if g + 1 = s.nextGeneration then Except.ok ()
  else Except.error JSError.staleResponse

/-- The deduplicator state after `n` overlapping issues (generations
`0, 1, ..., n - 1`), none of which has completed yet. -/
def issueMany : Nat → DedupState
  | 0 => { nextGeneration := 0 }
  | n + 1 => ((issueMany n).issue).2

/-- Given `n` overlapping issued requests and the order in which their
network responses complete, the generations whose outcome is applied
(settles as `ok` rather than stale). -/
def appliedGenerations (n : Nat) (completionOrder : List Nat) : List Nat :=
  completionOrder.filter (fun g =>
    match (issueMany n).settle g with
    | Except.ok _ => true
    | Except.error _ => false)

/-- The value of `history.location` read by `PWA.recordState`:
`pathname`, `search`, and `hash` (`none` when the property is undefined,
the destructuring default supplying the empty string). -/
structure Loc where
  pathname : String
  search : String
  hash : Option String
deriving DecidableEq

/-- A browser history entry: the path it was written with and the
serialized application state stored in it, if any. -/
structure HistEntry where
  path : String
  state : Option String
deriving DecidableEq

/-- The warning `recordState` logs when the state write fails. -/
def recordStateWarning : String :=
  "Could not record app state in history.  Will fall back to fetching state from the server when navigating back and forward."

/-- The browser primitive `history.replace(path, state)`: browsers impose
a size limit on the serialized state object and throw when it is
exceeded (the source comment cites 640kB on Firefox); writing a `null`
state never fails.  `limit` is the browser limit in bytes and the state
is measured by its serialized length. -/
def historyReplace (limit : Nat) (path : String) (st : Option String) :
    Except JSError HistEntry :=
  match st with
  | none => Except.ok { path := path, state := none }
  | some s =>
      if s.length ≤ limit then Except.ok { path := path, state := some s }
      else Except.error (JSError.other "history state size limit exceeded")

/-- Embedding of `PWA.recordState` from the app shell: try to record the
serialized app state (`app.toJSON()`) into the current history entry at
`pathname + hash + search`; on failure, write a `null` state entry
instead and log a warning.  The result is the history entry written and
the warnings logged, or the error if one escapes. -/
def recordState (limit : Nat) (loc : Loc) (appJson : String) :
    Except JSError (HistEntry × List String) :=
  let path := loc.pathname ++ loc.hash.getD "" ++ loc.search
  match historyReplace limit path (some appJson) with
  | Except.ok h => Except.ok (h, [])
  | Except.error _ =>
      (historyReplace limit path none).map (fun h => (h, [recordStateWarning]))

/-- The history methods of the router history object. -/
inductive HistMethod where
  | push
  | replace
  | go
  | goBack
  | goForward
deriving DecidableEq

/-- What invoking a (possibly wrapped) history method does, as an event
trace: a state snapshot via `recordState`, or delegation to the original
method. -/
inductive HEv where
  | recordState
  | original : HistMethod → HEv
deriving DecidableEq

/-- The unwrapped history object: every method just performs its original
behavior. -/
def baseBehavior (m : HistMethod) : List HEv := [HEv.original m]

/-- Embedding of `PWA.recordStateOnChange(history)`: for each of the
method names `push`, `go`, `goBack`, `goForward`, capture the original
method and replace it with a wrapper that snapshots the state and then
delegates to the captured original. -/
def recordStateOnChange (h : HistMethod → List HEv) : HistMethod → List HEv :=
  [HistMethod.push, HistMethod.go, HistMethod.goBack, HistMethod.goForward].foldl
    (fun acc m =>
      let original := acc m
      fun k => if k = m then HEv.recordState :: original else acc k)
    h

/-! ### Helper lemmas -/

theorem getKey_setKey (k : String) (v : JVal) (k' : String) (l : StatePatch) :
    getKey (setKey l k v) k' = if k' = k then some v else getKey l k' := by
  induction l with
  | nil =>
      by_cases h : k' = k
      · subst h; simp [setKey, getKey]
      · simp [setKey, getKey, h, Ne.symm h]
  | cons a t ih =>
      obtain ⟨k0, v0⟩ := a
      by_cases h0 : k0 = k
      · subst h0
        by_cases h : k' = k0
        · subst h; simp [setKey, getKey]
        · simp [setKey, getKey, h, Ne.symm h]
      · by_cases h1 : k0 = k'
        · subst h1
          simp [setKey, getKey, h0, Ne.symm h0]
        · simp [setKey, getKey, h0, h1, ih]

theorem getKey_eq_none_of_not_mem (k : String) (l : StatePatch)
    (h : k ∉ l.map Prod.fst) : getKey l k = none := by
  induction l with
  | nil => rfl
  | cons a t ih =>
      obtain ⟨k0, v0⟩ := a
      have hk0 : k0 ≠ k := fun hh => h (by simp [hh])
      have ht : k ∉ t.map Prod.fst := fun hh => h (by simp [hh])
      simp [getKey, hk0, ih ht]

theorem getKey_spreadMerge (p : StatePatch) (hnd : (p.map Prod.fst).Nodup)
    (base : StatePatch) (k : String) :
    getKey (spreadMerge base p) k = (getKey p k).or (getKey base k) := by
  induction p generalizing base with
  | nil => simp [spreadMerge, getKey]
  | cons a t ih =>
      obtain ⟨k0, v0⟩ := a
      rw [List.map_cons, List.nodup_cons] at hnd
      obtain ⟨hk0, hndt⟩ := hnd
      have step : spreadMerge base ((k0, v0) :: t) = spreadMerge (setKey base k0 v0) t := rfl
      rw [step, ih hndt (setKey base k0 v0), getKey_setKey]
      by_cases h : k0 = k
      · subst h
        rw [getKey_eq_none_of_not_mem k0 t hk0]
        simp [getKey]
      · simp [getKey, h, Ne.symm h]

theorem issueMany_nextGeneration : ∀ n : Nat, (issueMany n).nextGeneration = n
  | 0 => rfl
  | n + 1 => by simp [issueMany, DedupState.issue, issueMany_nextGeneration n]

/-! ### Concrete inputs used by counterexamples and witnesses -/

/-- The location of the app window in the concrete scenarios. -/
def appLocation : URLRec := ⟨"https:", "www.example.com", "", "/", ""⟩

/-- A redirect target that shares the hostname of `appLocation` but not
its protocol: the two URLs are cross-origin yet same-hostname. -/
def crossOriginTarget : URLRec := ⟨"http:", "www.example.com", "", "/a", "?q=1"⟩

/-- A same-origin redirect target on another path. -/
def sameOriginTarget : URLRec := ⟨"https:", "www.example.com", "", "/newpath", ""⟩

/-- A cross-hostname redirect target. -/
def otherHostTarget : URLRec := ⟨"https:", "www.other.com", "", "/x", ""⟩

/-- A 204 No Content response (no body to parse). -/
def response204 : ResponseRec := ⟨false, none, 204, Except.error (JSError.other "no body")⟩

/-- A fetch observation that receives a 204 with an unchanged location. -/
def input204 : FetchInput :=
  ⟨"https://www.example.com/p/1", Except.ok response204,
   "https://www.example.com/p/1", appLocation, false⟩

/-- A redirected response pointing at `sameOriginTarget`. -/
def redirectedResponse : ResponseRec :=
  ⟨true, some sameOriginTarget, 302, Except.error (JSError.other "no body")⟩

/-- A fetch observation that receives a redirected response. -/
def redirectInput : FetchInput :=
  ⟨"https://www.example.com/p/1", Except.ok redirectedResponse,
   "https://www.example.com/p/1", appLocation, false⟩

/-- A redirected response carrying no location URL. -/
def redirectNoLocationResponse : ResponseRec :=
  ⟨true, none, 301, Except.error (JSError.other "no body")⟩

/-- A fetch observation that receives a redirect without a location. -/
def redirectNoLocationInput : FetchInput :=
  ⟨"https://www.example.com/p/1", Except.ok redirectNoLocationResponse,
   "https://www.example.com/p/1", appLocation, false⟩

/-- A parsed JSON state patch as a success scenario body. -/
def productPatch : StatePatch := [("page", JVal.str "Product"), ("loading", JVal.bool true)]

/-- A 200 response whose body parses to `productPatch`. -/
def successResponse : ResponseRec := ⟨false, none, 200, Except.ok productPatch⟩

/-- A fetch observation for a plain success with an unchanged location. -/
def successInput : FetchInput :=
  ⟨"https://www.example.com/p/1", Except.ok successResponse,
   "https://www.example.com/p/1", appLocation, false⟩

/-- A fetch observation for a success resolving after the location
changed. -/
def movedAwayInput : FetchInput :=
  ⟨"https://www.example.com/p/1", Except.ok successResponse,
   "https://www.example.com/p/2", appLocation, false⟩

/-- A fetch observation whose deduplicated request rejected as stale. -/
def staleInput : FetchInput :=
  ⟨"https://www.example.com/p/1", Except.error JSError.staleResponse,
   "https://www.example.com/p/1", appLocation, false⟩

/-- A fetch observation whose request rejected with a network error. -/
def networkErrorInput : FetchInput :=
  ⟨"https://www.example.com/p/1", Except.error (JSError.other "network down"),
   "https://www.example.com/p/1", appLocation, false⟩

/-! ### Claims -/

/-- C1: For every sequence of N overlapping fetch calls through the
deduplicator, only the call with the highest generation number is ever
applied, regardless of the order in which the network responses
complete; every superseded generation settles as a stale error and is
discarded. -/
theorem C1_latest_generation_wins (n : Nat) (order : List Nat) (hn : 0 < n)
    (hperm : order.Perm (List.range n)) :
    appliedGenerations n order = [n - 1] ∧
      ∀ g, g < n → g ≠ n - 1 →
        (issueMany n).settle g = Except.error JSError.staleResponse := by
  obtain ⟨m, rfl⟩ : ∃ m, n = m + 1 := ⟨n - 1, (Nat.succ_pred_eq_of_pos hn).symm⟩
  have hsettle : ∀ g, (issueMany (m + 1)).settle g =
      if g + 1 = m + 1 then Except.ok () else Except.error JSError.staleResponse := by
    intro g
    simp [DedupState.settle, issueMany_nextGeneration]
  constructor
  · have hfilter := hperm.filter (fun g =>
      match (issueMany (m + 1)).settle g with
      | Except.ok _ => true
      | Except.error _ => false)
    have hrange : (List.range (m + 1)).filter (fun g =>
        match (issueMany (m + 1)).settle g with
        | Except.ok _ => true
        | Except.error _ => false) = [m] := by
      rw [List.range_succ, List.filter_append]
      have h1 : (List.range m).filter (fun g =>
          match (issueMany (m + 1)).settle g with
          | Except.ok _ => true
          | Except.error _ => false) = [] := by
        rw [List.filter_eq_nil_iff]
        intro a ha
        have : a < m := List.mem_range.mp ha
        simp [hsettle a, Nat.ne_of_lt (by omega : a + 1 < m + 1)]
      have h2 : [m].filter (fun g =>
          match (issueMany (m + 1)).settle g with
          | Except.ok _ => true
          | Except.error _ => false) = [m] := by
        simp [List.filter, hsettle m]
      rw [h1, h2, List.nil_append]
    have hsing := hfilter.trans (by rw [hrange])
    have heq : appliedGenerations (m + 1) order = [m] :=
      List.perm_singleton.mp hsing
    simpa using heq
  · intro g hlt hne
    rw [hsettle g, if_neg]
    omega

/-- Witness for C1 at three overlapping calls completing out of order. -/
theorem C1_witness :
    0 < 3 ∧ ([2, 0, 1] : List Nat).Perm (List.range 3) ∧
      (appliedGenerations 3 [2, 0, 1] = [2] ∧
        ∀ g, g < 3 → g ≠ 2 →
          (issueMany 3).settle g = Except.error JSError.staleResponse) :=
  ⟨by decide, by decide,
    C1_latest_generation_wins 3 [2, 0, 1] (by decide) (by decide)⟩

/-- C2: A fetch that resolves after `location.href` changed from its
value at dispatch time never returns a state patch (the result is a
discarded no-op), even when no newer request was issued; conversely,
when the location is unchanged and a JSON body was parsed, the state
patch is returned. -/
theorem C2_location_recheck (inp : FetchInput) :
    (inp.hrefAtResolution ≠ inp.hrefAtDispatch →
      ∀ p, (fetch inp).2 ≠ Except.ok (FetchResult.patch p)) ∧
    (∀ r p, inp.outcome = Except.ok r → r.redirected = false →
      r.status ≠ 204 → r.json = Except.ok p →
      inp.hrefAtResolution = inp.hrefAtDispatch →
      (fetch inp).2 = Except.ok (FetchResult.patch
        (spreadMerge [("loading", JVal.bool false)] p))) := by
  obtain ⟨hd, outc, hres, wloc, horig⟩ := inp
  constructor
  · intro hneq p hcontra
    simp only [fetch, fetchTry, catchStale] at hcontra
    rcases outc with e | r
    · simp at hcontra
      split at hcontra <;> simp_all
    · simp at hcontra
      by_cases hr : r.redirected
      · simp [hr] at hcontra
        rcases h : redirectTo r.url wloc with e | act <;> simp [h] at hcontra
        split at hcontra <;> simp_all
      · simp [hr] at hcontra
        by_cases hs : r.status = 204
        · simp [hs] at hcontra
        · simp [hs] at hcontra
          rcases hj : r.json with e | q
          · simp [hj] at hcontra
            split at hcontra <;> simp_all
          · simp [hj] at hcontra
            rw [if_neg (by simpa using hneq)] at hcontra
            simp at hcontra
  · intro r p ho hr hs hj hh
    subst ho
    simp at hh
    simp only [fetch, fetchTry, catchStale]
    simp [hr, hs, hj, hh]

/-- Witness for C2: a success resolving after navigation is discarded,
the same success with an unchanged location yields the patch. -/
theorem C2_witness :
    (fetch movedAwayInput).2 ≠ Except.ok (FetchResult.patch
      (spreadMerge [("loading", JVal.bool false)] productPatch)) ∧
    (fetch successInput).2 = Except.ok (FetchResult.patch
      (spreadMerge [("loading", JVal.bool false)] productPatch)) :=
  ⟨(C2_location_recheck movedAwayInput).1 (by decide) _,
    (C2_location_recheck successInput).2 successResponse productPatch
      rfl rfl (by decide) rfl rfl⟩

/-- C3 counterexample: the claim says a cross-origin redirect target is
handled with a full `location.assign` navigation, but `redirectTo`
compares hostnames only: a target sharing the hostname while differing
in protocol is cross-origin yet gets a client-side history push. -/
theorem C3_counterexample :
    sameOrigin crossOriginTarget appLocation = false ∧
    redirectTo (some crossOriginTarget) appLocation =
      Except.ok (RedirectAction.historyPush "/a?q=1") ∧
    ∀ u, redirectTo (some crossOriginTarget) appLocation ≠
      Except.ok (RedirectAction.locationAssign u) := by
  refine ⟨by decide, by decide, ?_⟩
  intro u h
  rw [(by decide : redirectTo (some crossOriginTarget) appLocation =
    Except.ok (RedirectAction.historyPush "/a?q=1"))] at h
  simp at h

/-- C3 amended: a redirect target sharing the hostname of the app window
(not the full origin) gets a client-side history push of its
`pathname + search` and never a `location.assign`; a target on a
different hostname gets a full `location.assign` navigation. -/
theorem C3_hostname_navigation (u w : URLRec) :
    (u.hostname = w.hostname → redirectTo (some u) w =
      Except.ok (RedirectAction.historyPush (u.pathname ++ u.search))) ∧
    (u.hostname ≠ w.hostname → redirectTo (some u) w =
      Except.ok (RedirectAction.locationAssign u)) := by
  constructor <;> intro h <;> simp [redirectTo, h]

/-- Witness for C3 at a same-hostname and a cross-hostname target. -/
theorem C3_witness :
    redirectTo (some crossOriginTarget) appLocation =
      Except.ok (RedirectAction.historyPush
        (crossOriginTarget.pathname ++ crossOriginTarget.search)) ∧
    redirectTo (some otherHostTarget) appLocation =
      Except.ok (RedirectAction.locationAssign otherHostTarget) :=
  ⟨(C3_hostname_navigation crossOriginTarget appLocation).1 rfl,
    (C3_hostname_navigation otherHostTarget appLocation).2 (by decide)⟩

/-- C4 counterexample: the claim says a 204 response with an unchanged
location yields exactly `null`, but the fetch body falls off the end
without a return there, so the call resolves with JavaScript
`undefined`, which is a distinct value from the explicit `null` of the
stale branch (and is not an object either). -/
theorem C4_counterexample :
    (fetch input204).2 = Except.ok FetchResult.undef ∧
    (fetch input204).2 ≠ Except.ok FetchResult.null ∧
    ∀ p, (fetch input204).2 ≠ Except.ok (FetchResult.patch p) := by
  refine ⟨by decide, by decide, ?_⟩
  intro p h
  rw [(by decide : (fetch input204).2 = Except.ok FetchResult.undef)] at h
  simp at h

/-- C4 amended: a non-redirected 204 response with an unchanged location
resolves with the valueless result (JavaScript `undefined`): not an
empty object and not a state patch, though also not the explicit `null`
value. -/
theorem C4_status204_yields_undefined (inp : FetchInput) (r : ResponseRec)
    (ho : inp.outcome = Except.ok r) (hr : r.redirected = false)
    (hs : r.status = 204)
    (hh : inp.hrefAtResolution = inp.hrefAtDispatch) :
    (fetch inp).2 = Except.ok FetchResult.undef := by
  obtain ⟨hd, outc, hres, wloc, horig⟩ := inp
  subst ho
  simp only [fetch, fetchTry, catchStale]
  simp [hr, hs]

/-- Witness for C4 at the concrete 204 observation. -/
theorem C4_witness : (fetch input204).2 = Except.ok FetchResult.undef :=
  C4_status204_yields_undefined input204 response204 rfl rfl rfl rfl

/-- C5: a stale-response rejection of the deduplicated request is
swallowed and converted into an explicit `null` result; any other
rejection propagates to the caller unchanged. -/
theorem C5_stale_swallowed_errors_propagate (inp : FetchInput) :
    (inp.outcome = Except.error JSError.staleResponse →
      (fetch inp).2 = Except.ok FetchResult.null) ∧
    (∀ e, inp.outcome = Except.error e → e ≠ JSError.staleResponse →
      (fetch inp).2 = Except.error e) := by
  obtain ⟨hd, outc, hres, wloc, horig⟩ := inp
  constructor
  · intro h
    subst h
    simp [fetch, fetchTry, catchStale]
  · intro e h hne
    subst h
    simp [fetch, fetchTry, catchStale, hne]

/-- Witness for C5: a stale rejection resolves as `null`, a network
error propagates. -/
theorem C5_witness :
    (fetch staleInput).2 = Except.ok FetchResult.null ∧
    (fetch networkErrorInput).2 = Except.error (JSError.other "network down") :=
  ⟨(C5_stale_swallowed_errors_propagate staleInput).1 rfl,
    (C5_stale_swallowed_errors_propagate networkErrorInput).2
      (JSError.other "network down") rfl (by decide)⟩

/-- C6: a redirected response with an absent (or empty, hence falsy)
location URL makes `redirectTo` throw a fatal error, and the whole fetch
rejects with it instead of retrying or continuing. -/
theorem C6_redirect_without_location_throws :
    (∀ w : URLRec,
      redirectTo none w = Except.error JSError.redirectWithoutLocation) ∧
    (∀ (inp : FetchInput) (r : ResponseRec), inp.outcome = Except.ok r →
      r.redirected = true → r.url = none →
      (fetch inp).2 = Except.error JSError.redirectWithoutLocation) := by
  constructor
  · intro w
    rfl
  · intro inp r ho hr hu
    obtain ⟨hd, outc, hres, wloc, horig⟩ := inp
    subst ho
    simp only [fetch, fetchTry, catchStale]
    simp [hr, hu, redirectTo]

/-- Witness for C6 at the concrete location-less redirect. -/
theorem C6_witness :
    (fetch redirectNoLocationInput).2 =
      Except.error JSError.redirectWithoutLocation :=
  C6_redirect_without_location_throws.2 redirectNoLocationInput
    redirectNoLocationResponse rfl rfl rfl

/-- C7 counterexample: the claim says prefetching is resumed after the
request is dispatched including on the redirect path, but on a
redirected response the fetch never emits `resumePrefetches`. -/
theorem C7_counterexample :
    Ev.dispatch ∈ (fetch redirectInput).1 ∧
    Ev.resumePrefetches ∉ (fetch redirectInput).1 := by
  decide

/-- C7 amended: every fetch aborts all prefetches strictly before
dispatching the network request; prefetching is resumed exactly when a
non-redirected response is received (after the response arrives, before
the body is parsed or the result applied), and is not resumed at all on
the redirect path or when the request rejects. -/
theorem C7_prefetch_abort_resume (inp : FetchInput) :
    (fetch inp).1.take 2 = [Ev.abortPrefetches, Ev.dispatch] ∧
    (Ev.resumePrefetches ∈ (fetch inp).1 ↔
      ∃ r, inp.outcome = Except.ok r ∧ r.redirected = false) ∧
    (∀ r, inp.outcome = Except.ok r → r.redirected = false →
      (fetch inp).1 = [Ev.abortPrefetches, Ev.dispatch, Ev.responseReceived,
        Ev.resumePrefetches]) := by
  obtain ⟨hd, outc, hres, wloc, horig⟩ := inp
  simp only [fetch, fetchTry]
  rcases outc with e | r
  · simp
  · by_cases hr : r.redirected
    · rcases h : redirectTo r.url wloc with e | act
      · simp [hr, h]
      · rcases act with p | u <;> simp [hr, h, redirectEv]
    · by_cases hs : r.status = 204
      · simp [hr, hs]
      · rcases hj : r.json with e | q
        · simp [hr, hs, hj]
        · by_cases hh : hres = hd <;> simp [hr, hs, hj, hh]

/-- Witness for C7: the full event trace of a plain success. -/
theorem C7_witness :
    (fetch successInput).1 = [Ev.abortPrefetches, Ev.dispatch,
      Ev.responseReceived, Ev.resumePrefetches] :=
  (C7_prefetch_abort_resume successInput).2.2 successResponse rfl rfl

/-- C8: when recording the app state into the history entry fails
because the serialized state exceeds the browser size limit, the state
entry is written as `null` instead, the warning is logged, and no error
escapes to the caller. -/
theorem C8_history_overflow_recovery (limit : Nat) (loc : Loc)
    (appJson : String) (h : limit < appJson.length) :
    recordState limit loc appJson = Except.ok
      ({ path := loc.pathname ++ loc.hash.getD "" ++ loc.search,
         state := none }, [recordStateWarning]) := by
  simp only [recordState, historyReplace]
  rw [if_neg (by omega)]
  rfl

/-- Witness for C8: a nine-byte state against a five-byte limit. -/
theorem C8_witness :
    recordState 5 { pathname := "/p/1", search := "?a=1", hash := none }
      "123456789" = Except.ok
      ({ path := "/p/1" ++ "" ++ "?a=1", state := none },
        [recordStateWarning]) :=
  C8_history_overflow_recovery 5
    { pathname := "/p/1", search := "?a=1", hash := none }
    "123456789" (by decide)

/-- C9 counterexample: the claim says every transition of kind push,
replace, back or forward snapshots the state first, but
`recordStateOnChange` does not wrap `replace`: invoking it performs no
snapshot. -/
theorem C9_counterexample :
    recordStateOnChange baseBehavior HistMethod.replace =
      [HEv.original HistMethod.replace] ∧
    HEv.recordState ∉ recordStateOnChange baseBehavior HistMethod.replace := by
  decide

/-- C9 amended: the wrapped history snapshots the application state
strictly before delegating for the methods `push`, `go`, `goBack` and
`goForward`; the `replace` method is not wrapped and performs no
snapshot. -/
theorem C9_snapshot_before_delegation (m : HistMethod) :
    (m ≠ HistMethod.replace →
      recordStateOnChange baseBehavior m =
        [HEv.recordState, HEv.original m]) ∧
    recordStateOnChange baseBehavior HistMethod.replace =
      [HEv.original HistMethod.replace] := by
  refine ⟨fun h => ?_, by decide⟩
  cases m with
  | replace => exact absurd rfl h
  | push => decide
  | go => decide
  | goBack => decide
  | goForward => decide

/-- Witness for C9 at the `push` method. -/
theorem C9_witness :
    recordStateOnChange baseBehavior HistMethod.push =
      [HEv.recordState, HEv.original HistMethod.push] :=
  (C9_snapshot_before_delegation HistMethod.push).1 (by decide)

/-- C10: every successful fetch with a parsed JSON body and an unchanged
location returns a patch that contains `loading`, defaulted to `false`
and merged beneath the response fields (the response value wins when
present), all other fields being exactly those of the response. -/
theorem C10_loading_false_merged_beneath (inp : FetchInput)
    (r : ResponseRec) (p : StatePatch)
    (ho : inp.outcome = Except.ok r) (hr : r.redirected = false)
    (hs : r.status ≠ 204) (hj : r.json = Except.ok p)
    (hh : inp.hrefAtResolution = inp.hrefAtDispatch)
    (hnd : (p.map Prod.fst).Nodup) :
    ∃ q, (fetch inp).2 = Except.ok (FetchResult.patch q) ∧
      getKey q "loading" =
        some ((getKey p "loading").getD (JVal.bool false)) ∧
      ∀ k, k ≠ "loading" → getKey q k = getKey p k := by
  obtain ⟨hd, outc, hres, wloc, horig⟩ := inp
  subst ho
  simp at hh
  refine ⟨spreadMerge [("loading", JVal.bool false)] p, ?_, ?_, ?_⟩
  · simp only [fetch, fetchTry, catchStale]
    simp [hr, hs, hj, hh]
  · rw [getKey_spreadMerge p hnd]
    cases hl : getKey p "loading" <;> simp [hl, Option.or, getKey]
  · intro k hk
    rw [getKey_spreadMerge p hnd]
    simp [getKey, Ne.symm hk]

/-- Witness for C10 at the concrete success observation, whose body
overrides `loading`. -/
theorem C10_witness :
    ∃ q, (fetch successInput).2 = Except.ok (FetchResult.patch q) ∧
      getKey q "loading" =
        some ((getKey productPatch "loading").getD (JVal.bool false)) ∧
      ∀ k, k ≠ "loading" → getKey q k = getKey productPatch k :=
  C10_loading_false_merged_beneath successInput successResponse productPatch
    rfl rfl (by decide) rfl rfl (by decide)

end ReactStorefront
